import Mathlib

/-!
Verification development for the DevDigest repository: a news collector
(Collector.py), a Wikipedia glossary collector (Glossary.py) and a CSV
dashboard (dashboard.py). The Python code is shallowly embedded: HTTP
responses become explicit arguments (an exception is `Except.error ()`),
JSON objects become structures whose fields are `Option String` (a field
that may be absent), Python sets become lists with membership, and the
CSV file becomes a list of lines. Randomness (`random.choice`) is
modelled by an index supplied by the environment, reduced modulo the
list length.
-/

/-- Python `str.lower`, character-wise, on the underlying character list. -/
def lowerStr (s : String) : String := String.mk (s.data.map Char.toLower)

/-- Python `str.strip`: drop leading and trailing whitespace. -/
def trimStr (s : String) : String :=
  String.mk (((s.data.dropWhile Char.isWhitespace).reverse.dropWhile
    Char.isWhitespace).reverse)

/-- Python `s.lower().strip()`, the normalization applied to topics. -/
def normalizeTopic (s : String) : String := trimStr (lowerStr s)

/-- Boolean test that `p` is a prefix of `s`, on character lists. -/
def isPre : List Char → List Char → Bool
  | [], _ => true
  | _ :: _, [] => false
  | p :: ps, c :: cs => p == c && isPre ps cs

/-- Boolean substring test on character lists: Python `pat in s`. -/
def containsChars : List Char → List Char → Bool
  | [], pat => pat.isEmpty
  | s@(_ :: cs), pat => isPre pat s || containsChars cs pat

/-- Python `pat in s` on strings. -/
def containsStr (s pat : String) : Bool := containsChars s.data pat.data

/-- Python `s.startswith(p)`. -/
def startsWithStr (s p : String) : Bool := isPre p.data s.data

/-- A glossary CSV data row: the five named columns of CS_Glossary.csv.
Fields are `Option String` because `csv.DictReader` yields `None` for a
column missing from a row. -/
structure GlossaryRow where
  date_added : Option String
  category : Option String
  topic : Option String
  definition : Option String
  url : Option String
deriving DecidableEq, Repr

/-- One line of the glossary CSV file: the header line or a data row. -/
inductive CsvLine where
  | header : CsvLine
  | row : GlossaryRow → CsvLine
deriving DecidableEq, Repr

/-- The data rows of a CSV file, as `csv.DictReader` iterates them
(the header line is consumed, not yielded). -/
def rowsOf (file : List CsvLine) : List GlossaryRow :=
  file.filterMap (fun l => match l with
    | CsvLine.header => none
    | CsvLine.row r => some r)

/-- Glossary.py `load_existing_topics`: collects `row['topic'].lower().strip()`
for every row whose `topic` field is truthy (present and non-empty).
The Python set is modelled as the list of collected values. -/
def load_existing_topics (rows : List GlossaryRow) : List String :=
  rows.filterMap (fun r => match r.topic with
    | some t => if t = "" then none else some (normalizeTopic t)
    | none => none)

/-- The filter inside `get_random_page_from_category`: drop titles that
start with "List of" and titles whose lower-casing contains
"(disambiguation)". -/
def filterValidPages (pages : List String) : List String :=
  pages.filter (fun t =>
    !(startsWithStr t "List of") && !(containsStr (lowerStr t) "(disambiguation)"))

/-- Glossary.py `get_random_page_from_category`. The HTTP round trip is
the argument `resp`: `none` models a raised-and-caught exception
(network error, bad status, malformed JSON), `some pages` the list of
member titles in the parsed response. `random.choice` is modelled by the
environment-supplied index `idx`, reduced modulo the candidate count. -/
def get_random_page_from_category (resp : Option (List String)) (idx : Nat) :
    Option String :=
  match resp with
  | none => none
  | some pages =>
    if pages.isEmpty then none
    else
      let valid := filterValidPages pages
      if valid.isEmpty then none
      else valid.get? (idx % valid.length)

/-- The parsed JSON body of a Wikipedia REST summary response, together
with its HTTP status. `title`, `extract` and `type` may be absent;
the nested `content_urls.desktop.page` access is collapsed into
`pageUrl` (absent when any level is missing). -/
structure SummaryResp where
  status : Nat
  title : Option String
  extract : Option String
  pageUrl : Option String
  rtype : Option String
deriving DecidableEq, Repr

/-- The record returned by `get_wikipedia_definition`. Fields are
`Option String`: a Python value that could in principle be `None`. -/
structure WikiData where
  topic : Option String
  definition : Option String
  url : Option String
deriving DecidableEq, Repr

/-- Glossary.py `get_wikipedia_definition`. `Except.error ()` models a
raised-and-caught exception; a 404 returns `None` directly; any other
error status makes `raise_for_status` throw, which the handler turns
into `None`. Otherwise the record is built from the JSON fields with
the code's defaults, and discarded when the extract is empty or the
page is a disambiguation page. -/
def get_wikipedia_definition (topic : String) (resp : Except Unit SummaryResp) :
    Option WikiData :=
  match resp with
  | Except.error _ => none
  | Except.ok r =>
    if r.status == 404 then none
    else if r.status ≥ 400 then none
    else
      let title := r.title.getD topic
      let definition := r.extract.getD ""
      let wiki_url := r.pageUrl.getD ""
      if definition = "" || r.rtype == some "disambiguation" then none
      else some ⟨some title, some definition, some wiki_url⟩

/-- Glossary.py `save_entry`. The file is its list of lines; a missing
file and a zero-length file are both the empty list, exactly the cases
where `file_exists` is false and the header is written first. The row
is always appended. -/
def save_entry (file : List CsvLine) (data : WikiData) (label : String)
    (current_date : String) : List CsvLine :=
  let file_exists := !file.isEmpty
  let newRow : GlossaryRow :=
    ⟨some current_date, some label, data.topic, data.definition, data.url⟩
  if file_exists then file ++ [CsvLine.row newRow]
  else file ++ [CsvLine.header, CsvLine.row newRow]

/-- The normalized topic values of the data rows of a glossary CSV file
(rows whose topic column is absent contribute nothing). -/
def fileNormTopics (file : List CsvLine) : List String :=
  file.filterMap (fun l => match l with
    | CsvLine.header => none
    | CsvLine.row r => r.topic.map normalizeTopic)

/-- Iterated `save_entry`: fold a list of (data, label, date) triples
into the file, one call per record. -/
def save_many (file : List CsvLine) (entries : List (WikiData × String × String)) :
    List CsvLine :=
  entries.foldl (fun f e => save_entry f e.1 e.2.1 e.2.2) file

/-- A parsed Hacker News item JSON object: the fields Collector.py
reads, each possibly absent. -/
structure HNItem where
  title : Option String
  url : Option String
  score : Option Int
deriving DecidableEq, Repr

/-- A story record built by the Collector.py fetchers. Fields other
than the hardcoded source are `Option`: Python values that could in
principle be `None`. -/
structure Story where
  source : String
  title : Option String
  url : Option String
  score : Option Int
deriving DecidableEq, Repr

/-- The record appended for a Hacker News item. -/
def mkHNStory (story : HNItem) : Story :=
  ⟨"Hacker News", some (story.title.getD ""), some (story.url.getD ""),
    some (story.score.getD 0)⟩

/-- The per-story loop of `get_hackernews_stories`. Each item request
may throw (`Except.error`), which the enclosing handler catches: the
function then returns the stories accumulated so far. A `none` body
models a JSON `null` item (falsy `story`), which is skipped; an item
without a title key is skipped as well. -/
def hnLoop (item : Nat → Except Unit (Option HNItem)) :
    List Nat → List Story → List Story
  | [], acc => acc
  | story_id :: rest, acc =>
    match item story_id with
    | Except.error _ => acc
    | Except.ok none => hnLoop item rest acc
    | Except.ok (some story) =>
      if story.title.isSome then hnLoop item rest (acc ++ [mkHNStory story])
      else hnLoop item rest acc

/-- Collector.py `get_hackernews_stories`. The top-stories request is
`top` (`Except.error` models a raised-and-caught exception); its id
list is truncated to the first 30 before the caller's limit applies. -/
def get_hackernews_stories (limit : Nat) (top : Except Unit (List Nat))
    (item : Nat → Except Unit (Option HNItem)) : List Story :=
  match top with
  | Except.error _ => []
  | Except.ok ids => hnLoop item ((ids.take 30).take limit) []

/-- A parsed tech-news item JSON object. -/
structure TechItem where
  title : Option String
  url : Option String
  points : Option Int
deriving DecidableEq, Repr

/-- A tech-news HTTP response: status code and body, where parsing the
body (`response.json()`) may itself throw. -/
structure TechResp where
  status : Nat
  body : Except Unit (List TechItem)

/-- The record appended for a tech-news item. -/
def mkTechStory (item : TechItem) : Story :=
  ⟨"Tech News", some (item.title.getD ""), some (item.url.getD ""),
    some (item.points.getD 0)⟩

/-- Collector.py `get_tech_news`. `Except.error` on the request models
a raised-and-caught exception (e.g. the 5-second timeout); a non-200
status skips the body and returns the empty accumulator; a body parse
error is caught and also yields the empty accumulator. -/
def get_tech_news (limit : Nat) (resp : Except Unit TechResp) : List Story :=
  match resp with
  | Except.error _ => []
  | Except.ok r =>
    if r.status == 200 then
      match r.body with
      | Except.error _ => []
      | Except.ok data => (data.take limit).map mkTechStory
    else []

/-- Collector.py main collection line: `all_stories = hn_stories + tech_stories`,
each fetcher called with limit 5 on its own responses. -/
def all_stories (top : Except Unit (List Nat))
    (item : Nat → Except Unit (Option HNItem))
    (tech : Except Unit TechResp) : List Story :=
  get_hackernews_stories 5 top item ++ get_tech_news 5 tech

/-- The environment of one attempt of the Glossary.py selector loop:
the label of the randomly chosen category, the category-members
response, the index modelling `random.choice` over the filtered
candidates, and the summary response for whatever title is requested. -/
structure AttemptInput where
  label : String
  listing : Option (List String)
  idx : Nat
  summary : Except Unit SummaryResp

/-- How one attempt of the selector loop ended: the four code paths of
the loop body after the attempt counter is incremented. -/
inductive AttemptKind where
  | noTitle : AttemptKind
  | duplicate : AttemptKind
  | fetchFail : AttemptKind
  | saved : AttemptKind
deriving DecidableEq, Repr

/-- Trace entry for one attempt: its outcome and whether the attempt
was followed by the `time.sleep(1)` politeness delay. -/
structure AttemptEvent where
  kind : AttemptKind
  slept : Bool
deriving DecidableEq, Repr

/-- The mutable state of the Glossary.py main block, plus the trace of
attempt events (for stating temporal properties). -/
structure LoopState where
  file : List CsvLine
  used_topics : List String
  topic_found : Bool
  attempts : Nat
  events : List AttemptEvent
deriving DecidableEq, Repr

/-- Glossary.py `max_attempts`. -/
def max_attempts : Nat := 10

/-- One iteration of the selector loop body (Glossary.py lines 168-200):
increment the attempt counter, draw a title from the chosen category,
check it against the de-duplication set, fetch its definition, and save
on success. The politeness sleep runs on the duplicate and
failed-definition paths only. -/
def stepAttempt (env : Nat → AttemptInput) (current_date : String)
    (st : LoopState) : LoopState :=
  let inp := env st.attempts
  let attempts := st.attempts + 1
  match get_random_page_from_category inp.listing inp.idx with
  | none =>
    { st with
        attempts := attempts
        events := st.events ++ [⟨AttemptKind.noTitle, false⟩] }
  | some random_title =>
    if normalizeTopic random_title ∈ st.used_topics then
      { st with
          attempts := attempts
          events := st.events ++ [⟨AttemptKind.duplicate, true⟩] }
    else
      match get_wikipedia_definition random_title inp.summary with
      | some wiki_data =>
        { st with
            attempts := attempts
            file := save_entry st.file wiki_data inp.label current_date
            topic_found := true
            events := st.events ++ [⟨AttemptKind.saved, false⟩] }
      | none =>
        { st with
            attempts := attempts
            events := st.events ++ [⟨AttemptKind.fetchFail, true⟩] }

/-- The `while not topic_found and attempts < max_attempts` loop, with
`fuel = max_attempts - attempts` making the guard structural: fuel 0 is
exactly `attempts = max_attempts`. -/
def selectorLoop (env : Nat → AttemptInput) (current_date : String) :
    Nat → LoopState → LoopState
  | 0, st => st
  | fuel + 1, st =>
    if st.topic_found then st
    else selectorLoop env current_date fuel (stepAttempt env current_date st)

/-- The Glossary.py main block on a starting file: build the
de-duplication set with `load_existing_topics`, then run the selector
loop from `topic_found = False`, `attempts = 0`. -/
def runMain (env : Nat → AttemptInput) (current_date : String)
    (file : List CsvLine) : LoopState :=
  selectorLoop env current_date max_attempts
    ⟨file, load_existing_topics (rowsOf file), false, 0, []⟩

/-- A row of NewsData.csv as the dashboard sees it after `read_csv`. -/
structure NewsRow where
  date : String
  source : String
  title : String
  url : String
  score : Int
deriving DecidableEq, Repr

/-- Row comparison for the "Score (High to Low)" sort key. -/
def scoreDescRel (a b : NewsRow) : Prop := b.score ≤ a.score

instance : DecidableRel scoreDescRel := fun a b => Int.decLe b.score a.score

instance : IsTotal NewsRow scoreDescRel := ⟨fun a b => le_total b.score a.score⟩

instance : IsTrans NewsRow scoreDescRel := ⟨fun _ _ _ h1 h2 => le_trans h2 h1⟩

/-- Row comparison for the "Score (Low to High)" sort key. -/
def scoreAscRel (a b : NewsRow) : Prop := a.score ≤ b.score

instance : DecidableRel scoreAscRel := fun a b => Int.decLe a.score b.score

/-- Row comparison for the "Date (Newest)" sort key. -/
def dateDescRel (a b : NewsRow) : Prop := b.date ≤ a.date

instance : DecidableRel dateDescRel := fun a b => String.decidableLE b.date a.date

/-- Row comparison for the "Date (Oldest)" sort key. -/
def dateAscRel (a b : NewsRow) : Prop := a.date ≤ b.date

instance : DecidableRel dateAscRel := fun a b => String.decidableLE a.date b.date

/-- The four options of the dashboard's "Sort by" radio control. -/
inductive SortKey where
  | scoreHigh : SortKey
  | scoreLow : SortKey
  | dateNew : SortKey
  | dateOld : SortKey
deriving DecidableEq, Repr

/-- dashboard.py lines 97-104: `df_filtered.sort_values(...)` under the
chosen sort key, modelled as a comparison sort on the row list. -/
def applySorting : SortKey → List NewsRow → List NewsRow
  | SortKey.scoreHigh, rows => List.insertionSort scoreDescRel rows
  | SortKey.scoreLow, rows => List.insertionSort scoreAscRel rows
  | SortKey.dateNew, rows => List.insertionSort dateDescRel rows
  | SortKey.dateOld, rows => List.insertionSort dateAscRel rows

/-- The CSV line appended by `save_entry` for an entry (data, label, date). -/
def rowOfEntry (e : WikiData × String × String) : CsvLine :=
  CsvLine.row ⟨some e.2.2, some e.2.1, e.1.topic, e.1.definition, e.1.url⟩

/-- An item environment where the request for story id 2 raises and the
request for story id 1 succeeds. -/
def hnItemEnvPartial : Nat → Except Unit (Option HNItem) :=
  fun n => if n = 1 then Except.ok (some ⟨some "First", some "u1", some 7⟩)
    else Except.error ()

/-- A response environment where every category request fails. -/
def envAllFail : Nat → AttemptInput :=
  fun _ => ⟨"Cybersecurity", none, 0, Except.error ()⟩

/-- A response environment whose category listing yields a title whose
summary fetch then fails. -/
def envFetchFail : Nat → AttemptInput :=
  fun _ => ⟨"Cryptography", some ["RSA"], 0, Except.error ()⟩

/-- An existing glossary file holding the single topic "Python". -/
def fileWithPython : List CsvLine :=
  [CsvLine.header,
   CsvLine.row ⟨some "2024-01-01", some "Programming Languages", some "Python",
     some "A programming language.", some "https://w/Python"⟩]

/-- A response environment whose category listing offers the title
"Foo", while the summary endpoint resolves it to the page titled
"Python" (as the REST endpoint does for redirects). -/
def envRedirect : Nat → AttemptInput :=
  fun _ => ⟨"Programming Languages", some ["Foo"], 0,
    Except.ok ⟨200, some "Python", some "A language.", some "https://w/Python",
      none⟩⟩

/-- A response environment whose summary endpoint echoes the requested
title "RSA" exactly. -/
def envEcho : Nat → AttemptInput :=
  fun _ => ⟨"Cryptography", some ["RSA"], 0,
    Except.ok ⟨200, some "RSA", some "A public-key cryptosystem.", some "u",
      none⟩⟩

theorem mem_filterValidPages (pages : List String) (t : String) :
    t ∈ filterValidPages pages ↔
      t ∈ pages ∧ startsWithStr t "List of" = false
        ∧ containsStr (lowerStr t) "(disambiguation)" = false := by
  simp [filterValidPages, List.mem_filter, Bool.and_eq_true, Bool.not_eq_true']

theorem get_random_page_from_category_isSome (pages : List String) (idx : Nat)
    (h : ¬ (filterValidPages pages).isEmpty) (hp : ¬ pages.isEmpty) :
    ∃ t, get_random_page_from_category (some pages) idx = some t := by
  simp only [get_random_page_from_category, hp, h, if_neg, ite_false]
  have hlen : 0 < (filterValidPages pages).length := by
    cases hfp : filterValidPages pages with
    | nil => simp [hfp] at h
    | cons a l => simp [hfp]
  have hlt : idx % (filterValidPages pages).length < (filterValidPages pages).length :=
    Nat.mod_lt _ hlen
  exact ⟨_, List.get?_eq_get hlt⟩

/-- C3: `get_random_page_from_category` keeps exactly the titles that do
not start with "List of" and do not contain "(disambiguation)"
case-insensitively; on the listing ["List of X", "Y (disambiguation)", "Z"]
the filtered candidate set is exactly ["Z"]; the result is a member of
the filtered candidates, and it is None exactly when the request failed,
the listing is empty, or the filtered candidate set is empty. -/
theorem get_random_page_from_category_spec :
    (∀ pages t, t ∈ filterValidPages pages ↔
        t ∈ pages ∧ startsWithStr t "List of" = false
          ∧ containsStr (lowerStr t) "(disambiguation)" = false)
    ∧ filterValidPages ["List of X", "Y (disambiguation)", "Z"] = ["Z"]
    ∧ (∀ idx, get_random_page_from_category none idx = none)
    ∧ (∀ pages idx, get_random_page_from_category (some pages) idx = none ↔
        (pages = [] ∨ filterValidPages pages = []))
    ∧ (∀ pages idx t, get_random_page_from_category (some pages) idx = some t →
        t ∈ filterValidPages pages) := by
  refine ⟨mem_filterValidPages, by decide, fun idx => rfl, ?_, ?_⟩
  · intro pages idx
    by_cases hp : pages.isEmpty
    · simp [get_random_page_from_category, hp, List.isEmpty_iff.mp hp]
    · by_cases hv : (filterValidPages pages).isEmpty
      · simp [get_random_page_from_category, hp, hv, List.isEmpty_iff.mp hv,
          List.isEmpty_iff] at hp ⊢
      · obtain ⟨t, ht⟩ := get_random_page_from_category_isSome pages idx hv hp
        rw [ht]
        simp [List.isEmpty_iff] at hp hv
        simp [hp, hv]
  · intro pages idx t h
    by_cases hp : pages.isEmpty
    · simp [get_random_page_from_category, hp] at h
    · by_cases hv : (filterValidPages pages).isEmpty
      · simp [get_random_page_from_category, hp, hv] at h
      · simp only [get_random_page_from_category, hp, hv, if_neg, ite_false] at h
        exact List.get?_mem h

/-- Witness for C3 at a concrete listing: drawing from
["List of X", "Y (disambiguation)", "Z"] yields "Z", which belongs to
the filtered candidate set. -/
theorem get_random_page_from_category_spec_witness :
    "Z" ∈ filterValidPages ["List of X", "Y (disambiguation)", "Z"] :=
  get_random_page_from_category_spec.2.2.2.2
    ["List of X", "Y (disambiguation)", "Z"] 0 "Z" (by decide)

/-- C4: the de-duplication set built by `load_existing_topics` contains
the normalized (lower-cased, trimmed) form of every topic value present
in the rows of the existing CSV. -/
theorem load_existing_topics_complete (rows : List GlossaryRow)
    (r : GlossaryRow) (t : String) (hr : r ∈ rows) (ht : r.topic = some t)
    (hne : t ≠ "") : normalizeTopic t ∈ load_existing_topics rows := by
  unfold load_existing_topics
  rw [List.mem_filterMap]
  exact ⟨r, hr, by rw [ht]; simp [hne]⟩

/-- Witness for C4: a two-row file whose second row holds topic
" PyThon " puts "python" in the de-duplication set. -/
theorem load_existing_topics_complete_witness :
    normalizeTopic " PyThon " ∈ load_existing_topics
      [⟨some "2024-01-01", some "AI", some "Agent", some "d", some "u"⟩,
       ⟨some "2024-01-02", some "PL", some " PyThon ", some "d", some "u"⟩] :=
  load_existing_topics_complete _
    ⟨some "2024-01-02", some "PL", some " PyThon ", some "d", some "u"⟩
    " PyThon " (by decide) rfl (by decide)

theorem save_many_of_ne_nil (entries : List (WikiData × String × String)) :
    ∀ file : List CsvLine, file ≠ [] →
      save_many file entries = file ++ entries.map rowOfEntry := by
  induction entries with
  | nil => intro file _; simp [save_many]
  | cons e es ih =>
    intro file hfile
    have hne : save_entry file e.1 e.2.1 e.2.2 = file ++ [rowOfEntry e] := by
      simp [save_entry, List.isEmpty_iff, hfile, rowOfEntry]
    have : save_many file (e :: es) = save_many (file ++ [rowOfEntry e]) es := by
      simp [save_many, hne]
    rw [this, ih (file ++ [rowOfEntry e]) (by simp), List.append_assoc]
    simp

/-- C5: `save_entry` is append-only and writes the header exactly once,
on the first call for which the file is absent or empty: one call on a
fresh file, then any number of further calls, produce exactly one header
line followed by the data rows in write order. -/
theorem save_entry_header_once :
    (∀ file data label d, ∃ newLines,
        save_entry file data label d = file ++ newLines)
    ∧ (∀ (e : WikiData × String × String) es,
        save_many [] (e :: es) =
          CsvLine.header :: (e :: es).map rowOfEntry) := by
  constructor
  · intro file data label d
    by_cases h : file.isEmpty
    · refine ⟨[CsvLine.header, CsvLine.row
        ⟨some d, some label, data.topic, data.definition, data.url⟩], ?_⟩
      simp [save_entry, h]
    · refine ⟨[CsvLine.row
        ⟨some d, some label, data.topic, data.definition, data.url⟩], ?_⟩
      simp [save_entry, h]
  · intro e es
    have h1 : save_entry [] e.1 e.2.1 e.2.2 =
        [CsvLine.header, rowOfEntry e] := by
      simp [save_entry, rowOfEntry]
    have : save_many [] (e :: es) =
        save_many [CsvLine.header, rowOfEntry e] es := by
      simp [save_many, h1]
    rw [this, save_many_of_ne_nil es _ (by simp)]
    simp

/-- The length bound of the per-story loop: it adds at most one story
per id. -/
theorem hnLoop_length (item : Nat → Except Unit (Option HNItem)) :
    ∀ ids acc, (hnLoop item ids acc).length ≤ acc.length + ids.length := by
  intro ids
  induction ids with
  | nil => intro acc; simp [hnLoop]
  | cons i rest ih =>
    intro acc
    cases hi : item i with
    | error e =>
      have hred : hnLoop item (i :: rest) acc = acc := by
        simp [hnLoop, hi]
      rw [hred]
      simp only [List.length_cons]
      omega
    | ok st =>
      cases st with
      | none =>
        have hred : hnLoop item (i :: rest) acc = hnLoop item rest acc := by
          simp [hnLoop, hi]
        rw [hred]
        refine le_trans (ih acc) ?_
        simp only [List.length_cons]
        omega
      | some story =>
        by_cases h : story.title.isSome
        · have hred : hnLoop item (i :: rest) acc =
              hnLoop item rest (acc ++ [mkHNStory story]) := by
            simp [hnLoop, hi, h]
          rw [hred]
          refine le_trans (ih (acc ++ [mkHNStory story])) ?_
          simp only [List.length_append, List.length_cons, List.length_nil]
          omega
        · have hred : hnLoop item (i :: rest) acc = hnLoop item rest acc := by
            simp [hnLoop, hi, h]
          rw [hred]
          refine le_trans (ih acc) ?_
          simp only [List.length_cons]
          omega

/-- C10: `get_hackernews_stories` returns at most min(limit, 30)
records, because the top-story id list is truncated to its first 30
elements before the caller's limit applies. -/
theorem get_hackernews_stories_min_cap (limit : Nat)
    (top : Except Unit (List Nat)) (item : Nat → Except Unit (Option HNItem)) :
    (get_hackernews_stories limit top item).length ≤ min limit 30 := by
  unfold get_hackernews_stories
  cases top with
  | error e => simp
  | ok ids =>
    refine le_trans (hnLoop_length item _ []) ?_
    simp only [List.length_take, List.length_nil, Nat.zero_add]
    omega

/-- C9: the "Score (High to Low)" sort key orders the rows by score
descending (each row's score is at least the next one's) while keeping
exactly the same rows; on rows with scores [10, 50, 30] the rendered
score order is [50, 30, 10]. -/
theorem applySorting_scoreHigh_spec :
    (∀ rows : List NewsRow,
        List.Sorted scoreDescRel (applySorting SortKey.scoreHigh rows)
          ∧ (applySorting SortKey.scoreHigh rows).Perm rows)
    ∧ (applySorting SortKey.scoreHigh
        [⟨"2024-01-01", "Hacker News", "A", "u1", 10⟩,
         ⟨"2024-01-01", "Hacker News", "B", "u2", 50⟩,
         ⟨"2024-01-01", "Tech News", "C", "u3", 30⟩]).map NewsRow.score =
      [50, 30, 10] := by
  refine ⟨fun rows => ⟨?_, ?_⟩, by decide⟩
  · exact List.sorted_insertionSort scoreDescRel rows
  · exact List.perm_insertionSort scoreDescRel rows

/-- Stories produced by the per-story loop extend the accumulator with
records built by `mkHNStory`. -/
theorem hnLoop_mem (item : Nat → Except Unit (Option HNItem)) :
    ∀ ids acc s, s ∈ hnLoop item ids acc →
      s ∈ acc ∨ ∃ story : HNItem, s = mkHNStory story := by
  intro ids
  induction ids with
  | nil => intro acc s hs; exact Or.inl hs
  | cons i rest ih =>
    intro acc s hs
    cases hi : item i with
    | error e =>
      rw [show hnLoop item (i :: rest) acc = acc by simp [hnLoop, hi]] at hs
      exact Or.inl hs
    | ok st =>
      cases st with
      | none =>
        rw [show hnLoop item (i :: rest) acc = hnLoop item rest acc by
          simp [hnLoop, hi]] at hs
        exact ih acc s hs
      | some story =>
        by_cases h : story.title.isSome
        · rw [show hnLoop item (i :: rest) acc =
              hnLoop item rest (acc ++ [mkHNStory story]) by
            simp [hnLoop, hi, h]] at hs
          rcases ih _ s hs with hmem | hex
          · rcases List.mem_append.mp hmem with h1 | h2
            · exact Or.inl h1
            · exact Or.inr ⟨story, List.mem_singleton.mp h2⟩
          · exact Or.inr hex
        · rw [show hnLoop item (i :: rest) acc = hnLoop item rest acc by
            simp [hnLoop, hi, h]] at hs
          exact ih acc s hs

/-- C7: every record returned by a successful fetch is fully populated:
a `some` result of `get_wikipedia_definition` has non-null topic,
definition and url, and every story returned by either news fetcher has
a non-null title. -/
theorem records_fully_populated :
    (∀ topic resp w, get_wikipedia_definition topic resp = some w →
        w.topic.isSome ∧ w.definition.isSome ∧ w.url.isSome)
    ∧ (∀ limit top item s, s ∈ get_hackernews_stories limit top item →
        s.title.isSome)
    ∧ (∀ limit resp s, s ∈ get_tech_news limit resp → s.title.isSome) := by
  refine ⟨?_, ?_, ?_⟩
  · intro topic resp w hw
    cases resp with
    | error e => simp [get_wikipedia_definition] at hw
    | ok r =>
      simp only [get_wikipedia_definition] at hw
      by_cases h404 : r.status == 404
      · simp [h404] at hw
      · by_cases herr : r.status ≥ 400
        · simp [h404, herr] at hw
        · by_cases hbad : r.extract.getD "" = "" || r.rtype == some "disambiguation"
          · simp [h404, herr, hbad] at hw
          · simp [h404, herr, hbad] at hw
            subst hw
            exact ⟨rfl, rfl, rfl⟩
  · intro limit top item s hs
    cases top with
    | error e => simp [get_hackernews_stories] at hs
    | ok ids =>
      simp only [get_hackernews_stories] at hs
      rcases hnLoop_mem item _ [] s hs with hmem | ⟨story, hstory⟩
      · simp at hmem
      · rw [hstory]
        rfl
  · intro limit resp s hs
    cases resp with
    | error e => simp [get_tech_news] at hs
    | ok r =>
      simp only [get_tech_news] at hs
      by_cases h200 : r.status == 200
      · rw [if_pos h200] at hs
        cases hb : r.body with
        | error e => simp [hb] at hs
        | ok data =>
          rw [hb] at hs
          simp only [List.mem_map] at hs
          obtain ⟨i, _, hi⟩ := hs
          rw [← hi]
          rfl
      · rw [if_neg h200] at hs
        simp at hs

/-- Witness for C7 at concrete responses: a successful summary fetch
and a one-item Hacker News run both yield fully populated records. -/
theorem records_fully_populated_witness :
    (let w : WikiData := ⟨some "Python", some "A language.", some "u"⟩;
      w.topic.isSome ∧ w.definition.isSome ∧ w.url.isSome)
    ∧ (⟨"Hacker News", some "T", some "u", some 3⟩ : Story).title.isSome := by
  constructor
  · exact records_fully_populated.1 "Python"
      (Except.ok ⟨200, some "Python", some "A language.", some "u", none⟩) _ rfl
  · exact records_fully_populated.2.1 1 (Except.ok [7])
      (fun _ => Except.ok (some ⟨some "T", some "u", some 3⟩))
      ⟨"Hacker News", some "T", some "u", some 3⟩ (by decide)

/-- Counterexample to C6 as stated: with top ids [1, 2], the item call
for id 2 fails, yet `get_hackernews_stories` returns the one story
collected before the failure, not an empty list. -/
theorem fetcher_empty_on_failure_counterexample :
    hnItemEnvPartial 2 = Except.error ()
    ∧ get_hackernews_stories 5 (Except.ok [1, 2]) hnItemEnvPartial =
        [⟨"Hacker News", some "First", some "u1", some 7⟩]
    ∧ get_hackernews_stories 5 (Except.ok [1, 2]) hnItemEnvPartial ≠ [] := by
  refine ⟨rfl, by decide, by decide⟩

/-- C6 amended: no failure propagates out of a fetcher. A failing
top-stories request yields []; a failing per-item request ends the loop
with the stories accumulated before it (the ids after the failing one
are never consulted), which is [] when the first item fails; a failing,
non-200 or unparsable tech-news request yields []; and the combined
collection is the concatenation of the two independently computed
source results, so a failure in one source leaves the other's records
unaffected. -/
theorem fetcher_failure_contained :
    (∀ limit item e, get_hackernews_stories limit (Except.error e) item = [])
    ∧ (∀ (item : Nat → Except Unit (Option HNItem)) ids1 i ids2 acc,
        item i = Except.error () →
          hnLoop item (ids1 ++ i :: ids2) acc = hnLoop item ids1 acc)
    ∧ (∀ limit e, get_tech_news limit (Except.error e) = [])
    ∧ (∀ limit status body, status ≠ 200 →
        get_tech_news limit (Except.ok ⟨status, body⟩) = [])
    ∧ (∀ limit status e, get_tech_news limit (Except.ok ⟨status, Except.error e⟩) = [])
    ∧ (∀ top item tech, all_stories top item tech =
        get_hackernews_stories 5 top item ++ get_tech_news 5 tech) := by
  refine ⟨fun _ _ _ => rfl, ?_, fun _ _ => rfl, ?_, ?_, fun _ _ _ => rfl⟩
  · intro item ids1 i ids2 acc hi
    induction ids1 generalizing acc with
    | nil =>
      simp only [List.nil_append]
      simp [hnLoop, hi]
    | cons j rest ih =>
      simp only [List.cons_append]
      cases hj : item j with
      | error e => simp [hnLoop, hj]
      | ok st =>
        cases st with
        | none =>
          rw [show hnLoop item (j :: (rest ++ i :: ids2)) acc =
              hnLoop item (rest ++ i :: ids2) acc by simp [hnLoop, hj]]
          rw [show hnLoop item (j :: rest) acc = hnLoop item rest acc by
            simp [hnLoop, hj]]
          exact ih acc
        | some story =>
          by_cases h : story.title.isSome
          · rw [show hnLoop item (j :: (rest ++ i :: ids2)) acc =
                hnLoop item (rest ++ i :: ids2) (acc ++ [mkHNStory story]) by
              simp [hnLoop, hj, h]]
            rw [show hnLoop item (j :: rest) acc =
                hnLoop item rest (acc ++ [mkHNStory story]) by
              simp [hnLoop, hj, h]]
            exact ih (acc ++ [mkHNStory story])
          · rw [show hnLoop item (j :: (rest ++ i :: ids2)) acc =
                hnLoop item (rest ++ i :: ids2) acc by simp [hnLoop, hj, h]]
            rw [show hnLoop item (j :: rest) acc = hnLoop item rest acc by
              simp [hnLoop, hj, h]]
            exact ih acc
  · intro limit status body hstatus
    simp [get_tech_news, hstatus]
  · intro limit status e
    by_cases h : status == 200
    · simp [get_tech_news, h]
    · simp [get_tech_news, h]

/-- Witness for C6 amended at concrete inputs: a failing item call for
id 2 cuts the loop short, and a 500-status tech-news response yields no
records. -/
theorem fetcher_failure_contained_witness :
    hnLoop hnItemEnvPartial [1, 2, 3] [] = hnLoop hnItemEnvPartial [1] []
    ∧ get_tech_news 5 (Except.ok ⟨500, Except.ok []⟩) = [] := by
  constructor
  · exact fetcher_failure_contained.2.1 hnItemEnvPartial [1] 2 [3] [] rfl
  · exact fetcher_failure_contained.2.2.2.1 5 500 (Except.ok []) (by decide)

/-- Case analysis of one selector-loop iteration: exactly one of the
four code paths runs, and each updates the state as shown. -/
theorem stepAttempt_cases (env : Nat → AttemptInput) (d : String)
    (st : LoopState) :
    stepAttempt env d st =
        { st with
            attempts := st.attempts + 1
            events := st.events ++ [⟨AttemptKind.noTitle, false⟩] }
    ∨ stepAttempt env d st =
        { st with
            attempts := st.attempts + 1
            events := st.events ++ [⟨AttemptKind.duplicate, true⟩] }
    ∨ (∃ t w,
        get_random_page_from_category (env st.attempts).listing
            (env st.attempts).idx = some t
        ∧ normalizeTopic t ∉ st.used_topics
        ∧ get_wikipedia_definition t (env st.attempts).summary = some w
        ∧ stepAttempt env d st =
            { st with
                attempts := st.attempts + 1
                file := save_entry st.file w (env st.attempts).label d
                topic_found := true
                events := st.events ++ [⟨AttemptKind.saved, false⟩] })
    ∨ stepAttempt env d st =
        { st with
            attempts := st.attempts + 1
            events := st.events ++ [⟨AttemptKind.fetchFail, true⟩] } := by
  cases hgr : get_random_page_from_category (env st.attempts).listing
      (env st.attempts).idx with
  | none =>
    left
    simp [stepAttempt, hgr]
  | some t =>
    by_cases hmem : normalizeTopic t ∈ st.used_topics
    · right; left
      simp [stepAttempt, hgr, hmem]
    · cases hw : get_wikipedia_definition t (env st.attempts).summary with
      | none =>
        right; right; right
        simp [stepAttempt, hgr, hmem, hw]
      | some w =>
        right; right; left
        exact ⟨t, w, rfl, hmem, hw, by simp [stepAttempt, hgr, hmem, hw]⟩

theorem stepAttempt_attempts (env : Nat → AttemptInput) (d : String)
    (st : LoopState) : (stepAttempt env d st).attempts = st.attempts + 1 := by
  rcases stepAttempt_cases env d st with h | h | ⟨t, w, _, _, _, h⟩ | h <;>
    rw [h]

theorem stepAttempt_used (env : Nat → AttemptInput) (d : String)
    (st : LoopState) : (stepAttempt env d st).used_topics = st.used_topics := by
  rcases stepAttempt_cases env d st with h | h | ⟨t, w, _, _, _, h⟩ | h <;>
    rw [h]

theorem stepAttempt_file_of_not_found (env : Nat → AttemptInput) (d : String)
    (st : LoopState) (h : (stepAttempt env d st).topic_found = false) :
    (stepAttempt env d st).file = st.file := by
  rcases stepAttempt_cases env d st with hs | hs | ⟨t, w, _, _, _, hs⟩ | hs
  · rw [hs]
  · rw [hs]
  · rw [hs] at h
    exact absurd h (by simp)
  · rw [hs]

theorem selectorLoop_of_found (env : Nat → AttemptInput) (d : String) :
    ∀ fuel st, st.topic_found = true → selectorLoop env d fuel st = st := by
  intro fuel st h
  cases fuel with
  | zero => rfl
  | succ n => simp [selectorLoop, h]

theorem selectorLoop_attempts (env : Nat → AttemptInput) (d : String) :
    ∀ fuel st, (selectorLoop env d fuel st).attempts ≤ st.attempts + fuel := by
  intro fuel
  induction fuel with
  | zero => intro st; simp [selectorLoop]
  | succ n ih =>
    intro st
    by_cases h : st.topic_found
    · rw [selectorLoop_of_found env d (n + 1) st h]
      omega
    · rw [show selectorLoop env d (n + 1) st =
          selectorLoop env d n (stepAttempt env d st) by simp [selectorLoop, h]]
      refine le_trans (ih (stepAttempt env d st)) ?_
      rw [stepAttempt_attempts]
      omega

theorem selectorLoop_file_of_not_found (env : Nat → AttemptInput) (d : String) :
    ∀ fuel st, (selectorLoop env d fuel st).topic_found = false →
      (selectorLoop env d fuel st).file = st.file := by
  intro fuel
  induction fuel with
  | zero => intro st _; rfl
  | succ n ih =>
    intro st h
    by_cases hf : st.topic_found
    · rw [selectorLoop_of_found env d (n + 1) st hf]
    · rw [show selectorLoop env d (n + 1) st =
          selectorLoop env d n (stepAttempt env d st) by
        simp [selectorLoop, hf]] at h ⊢
      have hstep : (stepAttempt env d st).topic_found = false := by
        cases hx : (stepAttempt env d st).topic_found with
        | false => rfl
        | true =>
          rw [selectorLoop_of_found env d n _ hx, hx] at h
          exact absurd h (by simp)
      rw [ih (stepAttempt env d st) h]
      exact stepAttempt_file_of_not_found env d st hstep

/-- C1: the selector loop makes at most max_attempts = 10 attempts
(it is a total function of its response environment, so it terminates
on every one), and when it ends without success no record has been
written: the file is exactly the starting file. -/
theorem selector_loop_bounded (env : Nat → AttemptInput)
    (current_date : String) (file : List CsvLine) :
    (runMain env current_date file).attempts ≤ max_attempts
    ∧ ((runMain env current_date file).topic_found = false →
        (runMain env current_date file).file = file) := by
  unfold runMain
  constructor
  · refine le_trans (selectorLoop_attempts env current_date max_attempts _) ?_
    simp
  · exact fun h =>
      selectorLoop_file_of_not_found env current_date max_attempts _ h

/-- Witness for C1 on a run where every attempt fails: the attempt
count stays within the cap and the (empty) file is untouched. -/
theorem selector_loop_bounded_witness :
    (runMain envAllFail "2024-01-02" []).attempts ≤ max_attempts
    ∧ (runMain envAllFail "2024-01-02" []).file = [] :=
  ⟨(selector_loop_bounded envAllFail "2024-01-02" []).1,
   (selector_loop_bounded envAllFail "2024-01-02" []).2 (by decide)⟩

/-- Counterexample to C8 as stated: on a run whose category listings
all fail, every attempt contacted the API and failed, yet no attempt is
followed by the politeness delay — the empty/error-listing path has no
sleep. -/
theorem politeness_delay_counterexample :
    ¬ (∀ e ∈ (runMain envAllFail "2024-01-02" []).events,
        (e.kind = AttemptKind.noTitle ∨ e.kind = AttemptKind.duplicate
          ∨ e.kind = AttemptKind.fetchFail) → e.slept = true) := by
  decide

theorem selectorLoop_events_sleep (env : Nat → AttemptInput) (d : String) :
    ∀ fuel st,
      (∀ e ∈ st.events, (e.slept = true ↔
        (e.kind = AttemptKind.duplicate ∨ e.kind = AttemptKind.fetchFail))) →
      ∀ e ∈ (selectorLoop env d fuel st).events,
        (e.slept = true ↔
          (e.kind = AttemptKind.duplicate ∨ e.kind = AttemptKind.fetchFail)) := by
  intro fuel
  induction fuel with
  | zero => intro st h; exact h
  | succ n ih =>
    intro st h
    by_cases hf : st.topic_found
    · rw [selectorLoop_of_found env d (n + 1) st hf]
      exact h
    · rw [show selectorLoop env d (n + 1) st =
          selectorLoop env d n (stepAttempt env d st) by simp [selectorLoop, hf]]
      refine ih (stepAttempt env d st) ?_
      rcases stepAttempt_cases env d st with hs | hs | ⟨t, w, _, _, _, hs⟩ | hs <;>
        · rw [hs]
          intro e he
          rcases List.mem_append.mp he with h1 | h2
          · exact h e h1
          · rw [List.mem_singleton.mp h2]
            decide

/-- C8 amended: in every trace of the selector loop, an attempt is
followed by the roughly one-second politeness delay exactly when it
failed at the duplicate check or at the summary fetch; attempts that
fail because the category listing is empty or errored are not followed
by a delay, and neither is the successful attempt. -/
theorem politeness_delay_amended (env : Nat → AttemptInput)
    (current_date : String) (file : List CsvLine) (e : AttemptEvent)
    (he : e ∈ (runMain env current_date file).events) :
    e.slept = true ↔
      (e.kind = AttemptKind.duplicate ∨ e.kind = AttemptKind.fetchFail) :=
  selectorLoop_events_sleep env current_date max_attempts _
    (by intro e' he'; simp at he') e he

/-- Witness for C8 amended: on a concrete run where the summary fetch
fails, the recorded failed attempt is followed by the delay. -/
theorem politeness_delay_amended_witness :
    (⟨AttemptKind.fetchFail, true⟩ : AttemptEvent).slept = true :=
  (politeness_delay_amended envFetchFail "2024-01-02" []
    ⟨AttemptKind.fetchFail, true⟩ (by decide)).mpr (Or.inr rfl)

theorem get_wikipedia_definition_some (topic : String)
    (resp : Except Unit SummaryResp) (w : WikiData)
    (h : get_wikipedia_definition topic resp = some w) :
    ∃ r, resp = Except.ok r ∧ w.topic = some (r.title.getD topic) := by
  cases resp with
  | error e => simp [get_wikipedia_definition] at h
  | ok r =>
    refine ⟨r, rfl, ?_⟩
    simp only [get_wikipedia_definition] at h
    by_cases h404 : r.status == 404
    · simp [h404] at h
    · by_cases herr : r.status ≥ 400
      · simp [h404, herr] at h
      · by_cases hbad : r.extract.getD "" = "" || r.rtype == some "disambiguation"
        · simp [h404, herr, hbad] at h
        · simp [h404, herr, hbad] at h
          subst h
          rfl

theorem fileNormTopics_append (l1 l2 : List CsvLine) :
    fileNormTopics (l1 ++ l2) = fileNormTopics l1 ++ fileNormTopics l2 :=
  List.filterMap_append l1 l2 _

theorem fileNormTopics_save_entry (file : List CsvLine) (w : WikiData)
    (label d : String) :
    fileNormTopics (save_entry file w label d) =
      fileNormTopics file ++ (w.topic.map normalizeTopic).toList := by
  by_cases h : file.isEmpty
  · rw [show save_entry file w label d = file ++
        [CsvLine.header, CsvLine.row ⟨some d, some label, w.topic,
          w.definition, w.url⟩] by simp [save_entry, h]]
    rw [fileNormTopics_append]
    cases w.topic <;> simp [fileNormTopics]
  · rw [show save_entry file w label d = file ++
        [CsvLine.row ⟨some d, some label, w.topic, w.definition, w.url⟩] by
      simp [save_entry, h]]
    rw [fileNormTopics_append]
    cases w.topic <;> simp [fileNormTopics]

theorem fileNormTopics_eq_rows : ∀ file : List CsvLine,
    fileNormTopics file =
      (rowsOf file).filterMap (fun r => r.topic.map normalizeTopic) := by
  intro file
  induction file with
  | nil => rfl
  | cons l ls ih =>
    cases l with
    | header =>
      simpa [fileNormTopics, rowsOf, List.filterMap_cons] using ih
    | row r =>
      simp only [fileNormTopics, rowsOf, List.filterMap_cons] at ih ⊢
      cases hr : r.topic.map normalizeTopic with
      | none => simpa [hr] using ih
      | some t => simp [hr, ih]

theorem fileNormTopics_subset_load (file : List CsvLine)
    (h0 : ∀ r ∈ rowsOf file, r.topic ≠ some "") :
    ∀ x ∈ fileNormTopics file, x ∈ load_existing_topics (rowsOf file) := by
  intro x hx
  rw [fileNormTopics_eq_rows] at hx
  rw [List.mem_filterMap] at hx
  obtain ⟨r, hr, hmap⟩ := hx
  cases ht : r.topic with
  | none => rw [ht] at hmap; simp at hmap
  | some t =>
    rw [ht] at hmap
    simp only [Option.map_some'] at hmap
    have hne : t ≠ "" := by
      intro hcon
      exact h0 r hr (by rw [ht, hcon])
    rw [load_existing_topics, List.mem_filterMap]
    refine ⟨r, hr, ?_⟩
    rw [ht]
    simp only [hne, if_false, ite_false, if_neg hne]
    rw [Option.some.injEq] at hmap ⊢
    exact hmap

theorem selectorLoop_nodup (env : Nat → AttemptInput) (d : String)
    (henv : ∀ n r t, (env n).summary = Except.ok r →
      get_random_page_from_category (env n).listing (env n).idx = some t →
      normalizeTopic (r.title.getD t) = normalizeTopic t) :
    ∀ fuel st,
      (fileNormTopics st.file).Nodup →
      (∀ x ∈ fileNormTopics st.file, x ∈ st.used_topics) →
      (fileNormTopics (selectorLoop env d fuel st).file).Nodup := by
  intro fuel
  induction fuel with
  | zero => intro st hnd _; exact hnd
  | succ n ih =>
    intro st hnd hsub
    by_cases hf : st.topic_found
    · rw [selectorLoop_of_found env d (n + 1) st hf]
      exact hnd
    · rw [show selectorLoop env d (n + 1) st =
          selectorLoop env d n (stepAttempt env d st) by simp [selectorLoop, hf]]
      rcases stepAttempt_cases env d st with hs | hs | ⟨t, w, hgr, hmem, hw, hs⟩ | hs
      · exact ih _ (by rw [hs]; exact hnd) (by rw [hs]; exact hsub)
      · exact ih _ (by rw [hs]; exact hnd) (by rw [hs]; exact hsub)
      · have hfound : (stepAttempt env d st).topic_found = true := by rw [hs]
        rw [selectorLoop_of_found env d n _ hfound, hs]
        show (fileNormTopics (save_entry st.file w (env st.attempts).label d)).Nodup
        obtain ⟨r, hr, htop⟩ := get_wikipedia_definition_some t _ w hw
        rw [fileNormTopics_save_entry, htop]
        have hkey : normalizeTopic (r.title.getD t) = normalizeTopic t :=
          henv st.attempts r t hr hgr
        simp only [Option.map_some', Option.toList_some, hkey]
        rw [List.nodup_append]
        refine ⟨hnd, List.nodup_singleton _, ?_⟩
        intro x hx hx1
        rw [List.mem_singleton.mp hx1] at hx
        exact hmem (hsub _ hx)
      · exact ih _ (by rw [hs]; exact hnd) (by rw [hs]; exact hsub)

/-- Counterexample to C2 as stated: the starting file has pairwise
distinct normalized topics, yet the run writes a record whose topic
duplicates the existing "Python", because the membership check is on
the requested title "Foo" while save_entry writes the summary
response's title. -/
theorem dedup_preserved_counterexample :
    (fileNormTopics fileWithPython).Nodup
    ∧ ¬ (fileNormTopics
        (runMain envRedirect "2024-01-02" fileWithPython).file).Nodup := by
  constructor
  · decide
  · decide

/-- C2 amended: the run preserves pairwise-distinct normalized topics
provided the existing rows carry non-empty topic values (so the loader
indexes them all) and the summary endpoint echoes each requested title
up to normalization; without the echo assumption the written topic is
the summary's title and may duplicate an existing one. -/
theorem dedup_preserved_amended (env : Nat → AttemptInput)
    (current_date : String) (file : List CsvLine)
    (hrows : ∀ r ∈ rowsOf file, r.topic ≠ some "")
    (hnd : (fileNormTopics file).Nodup)
    (henv : ∀ n r t, (env n).summary = Except.ok r →
      get_random_page_from_category (env n).listing (env n).idx = some t →
      normalizeTopic (r.title.getD t) = normalizeTopic t) :
    (fileNormTopics (runMain env current_date file).file).Nodup := by
  unfold runMain
  refine selectorLoop_nodup env current_date henv max_attempts _ hnd ?_
  intro x hx
  exact fileNormTopics_subset_load file hrows x hx

/-- Witness for C2 amended on a concrete echoing run starting from an
empty file: the resulting file still has pairwise distinct normalized
topics. -/
theorem dedup_preserved_amended_witness :
    (fileNormTopics (runMain envEcho "2024-01-02" []).file).Nodup := by
  refine dedup_preserved_amended envEcho "2024-01-02" [] ?_ ?_ ?_
  · intro r hr
    simp [rowsOf] at hr
  · decide
  · intro n r t h1 h2
    have h1' : (Except.ok ⟨200, some "RSA", some "A public-key cryptosystem.",
        some "u", none⟩ : Except Unit SummaryResp) = Except.ok r := h1
    have h2' : (some "RSA" : Option String) = some t := h2
    rw [Option.some.injEq] at h2'
    subst h2'
    rw [Except.ok.injEq] at h1'
    rw [← h1']
    rfl
